import Mathlib

/-!
Shallow embedding of the authentication middleware package
(src/authentication/middlewares.go) of go-microservice-toolkit.

The file embeds the verification pipeline: credential extraction
(the loop of verifyRequest and the three strategies wired by Verify),
decode-error classification, the signing-method check, the Verify
middleware that records the outcome on the request context, the
Authenticate middleware that enforces it, and the RequiresRole gate.

Collaborators that live outside the embedded source file (the jwt
decoder, the context accessors, AppClaims parsing, the extraction
strategies) are modelled from the specification and marked as such.
-/

namespace JwtMw

/-- A role is an opaque comparable identifier; the spec allows a string. -/
abbrev Role := String

/-- The raw claim set carried by a decoded token, an opaque key-value map. -/
abbrev RawClaims := List (String × String)

/-- Application-level parsed claims: an account identifier and a role set. -/
structure AppClaims where
  sub : String
  roles : List Role
deriving DecidableEq, Repr

/-- The decoded structural representation of a credential: a signing-method
identifier, a validity flag and a raw claim set. -/
structure Token where
  method : String
  valid : Bool
  claims : RawClaims
deriving DecidableEq, Repr

/-- Go error values reaching verifyRequest: the concrete type
jwt.ValidationError is the constructor `validation`, carrying its
bit-flag field Errors; the sentinel errors of the package are their own
constructors; `other` stands for an error of any other concrete type. -/
inductive VError where
  | validation (errors : Nat)
  | errNoTokenFound
  | errExpired
  | errIATInvalid
  | errNBFInvalid
  | errAlgoInvalid
  | other (msg : String)
deriving DecidableEq, Repr

/-- Bit flag jwt.ValidationErrorExpired of the jwt-go library. -/
def validationErrorExpired : Nat := 16

/-- Bit flag jwt.ValidationErrorIssuedAt of the jwt-go library. -/
def validationErrorIssuedAt : Nat := 32

/-- Bit flag jwt.ValidationErrorNotValidYet of the jwt-go library. -/
def validationErrorNotValidYet : Nat := 128

/-- The observable parts of an http request: the jwt query parameter, the
Authorization header and the jwt cookie value, each empty when absent. -/
structure Request where
  query : String
  authHeader : String
  cookie : String
deriving DecidableEq, Repr

/-- The jwtAuth configuration: the configured expected signing method and
the decoder. Modelled from the spec: Decode is the external collaborator
`decode(credentialString, signingMethod, keyMaterial) -> (Token, error)`;
on failure the token may still be partially populated, so the decoder
always yields a token value alongside an optional error. -/
structure JwtAuth where
  signer : String
  decode : String → Token × Option VError

/-- Modelled from the spec: extraction strategy reading the jwt URI query
parameter (TokenFromQuery, declared outside the embedded file). -/
def tokenFromQuery (r : Request) : String := r.query

/-- Modelled from the spec: extraction strategy reading the
`Authorization: Bearer T` request header (TokenFromHeader, declared
outside the embedded file). -/
def tokenFromHeader (r : Request) : String :=
  if 7 < r.authHeader.length ∧ (r.authHeader.take 6).toUpper = "BEARER" then
    r.authHeader.drop 7
  else ""

/-- Modelled from the spec: extraction strategy reading the jwt cookie
value (TokenFromCookie, declared outside the embedded file). -/
def tokenFromCookie (r : Request) : String := r.cookie

/-- The extraction loop of verifyRequest (middlewares.go lines 83-88):
call the find functions in order, stopping at the first non-empty string;
the empty string is the distinguished "not found" value. -/
def extractToken : List (Request → String) → Request → String
  | [], _ => ""
  | fn :: rest, r =>
    let tokenStr := fn r
    if tokenStr ≠ "" then tokenStr else extractToken rest r

/-- The decode-error classification of verifyRequest (lines 96-105): a
jwt.ValidationError is tested, in priority order, for the Expired,
IssuedAt and NotValidYet bit flags; any error not matching a time-based
cause (including any error of another concrete type) passes through. -/
def classifyDecodeError : VError → VError
  | VError.validation errs =>
    if 0 < errs &&& validationErrorExpired then VError.errExpired
    else if 0 < errs &&& validationErrorIssuedAt then VError.errIATInvalid
    else if 0 < errs &&& validationErrorNotValidYet then VError.errNBFInvalid
    else VError.validation errs
  | e => e

/-- verifyRequest (lines 76-115): extract a credential, report
ErrNoTokenFound when absent, otherwise decode, classify a decode error,
and check the signing method of a successfully decoded token. -/
def JwtAuth.verifyRequest (ja : JwtAuth) (fns : List (Request → String))
    (r : Request) : Option Token × Option VError :=
  let tokenStr := extractToken fns r
  if tokenStr = "" then (none, some VError.errNoTokenFound)
  else
    match ja.decode tokenStr with
    | (token, some e) => (some token, some (classifyDecodeError e))
    | (token, none) =>
      if token.method ≠ ja.signer then (some token, some VError.errAlgoInvalid)
      else (some token, none)

/-- The request context: one slot for the verification outcome and one
slot for the parsed AppClaims, each under its own well-known key. -/
structure Ctx where
  outcome : Option (Option Token × Option VError)
  appClaims : Option AppClaims
deriving DecidableEq, Repr

/-- Modelled from the spec: NewContext (declared outside the embedded
file) attaches the verification outcome under its key, leaving the other
slot untouched. -/
def newContext (ctx : Ctx) (token : Option Token) (err : Option VError) : Ctx :=
  { ctx with outcome := some (token, err) }

/-- Modelled from the spec: TokenFromContext (declared outside the
embedded file) retrieves the outcome, yielding the token, its raw claim
set and the carried error; when the Verifier never ran, the zero values
are produced (no token, empty claims, no error). -/
def tokenFromContext (ctx : Ctx) : Option Token × RawClaims × Option VError :=
  match ctx.outcome with
  | none => (none, [], none)
  | some (token, err) =>
    (token, (match token with | some t => t.claims | none => []), err)

/-- Go http.StatusText restricted to the status code the package uses. -/
def unauthorizedText : String := "Unauthorized"

/-- Go http.StatusText for code 401 is the generic text Unauthorized. -/
def statusText (code : Nat) : String :=
  if code = 401 then unauthorizedText else ""

/-- The body and status written by http.Error. -/
structure HttpResponse where
  status : Nat
  body : String
deriving DecidableEq, Repr

/-- What a middleware stage does with one request: short-circuit with a
written response, or invoke the next handler once with the given context. -/
inductive HResult where
  | reject (resp : HttpResponse)
  | forward (ctx : Ctx)
deriving DecidableEq, Repr

/-- Authenticate (lines 14-40), parameterized by AppClaims.ParseClaims
(application code outside the embedded file): reject 401 when the context
carries an error, the token is absent or invalid, or claim parsing fails;
otherwise attach the parsed AppClaims and forward. -/
def authenticate (parseClaims : RawClaims → Option AppClaims) (ctx : Ctx) :
    HResult :=
  match tokenFromContext ctx with
  | (token, claims, err) =>
    match err with
    | some _ => HResult.reject ⟨401, statusText 401⟩
    | none =>
      match token with
      | none => HResult.reject ⟨401, statusText 401⟩
      | some t =>
        if !t.valid then HResult.reject ⟨401, statusText 401⟩
        else
          match parseClaims claims with
          | none => HResult.reject ⟨401, statusText 401⟩
          | some c => HResult.forward { ctx with appClaims := some c }

/-- The verify middleware body (lines 64-74): run verifyRequest, attach
the outcome to the context, and always invoke the next handler with the
augmented context. -/
def JwtAuth.verify (ja : JwtAuth) (fns : List (Request → String))
    (r : Request) (ctx : Ctx) : HResult :=
  match ja.verifyRequest fns r with
  | (token, err) => HResult.forward (newContext ctx token err)

/-- Verify (lines 58-62): verify with the three strategies in the fixed
order query parameter, Authorization Bearer header, cookie. -/
def JwtAuth.Verify (ja : JwtAuth) (r : Request) (ctx : Ctx) : HResult :=
  ja.verify [tokenFromQuery, tokenFromHeader, tokenFromCookie] r ctx

/-- The zero value of AppClaims: empty identifier, empty role set. -/
def emptyAppClaims : AppClaims := { sub := "", roles := [] }

/-- Modelled from the spec: AppClaimsFromCtx (declared outside the
embedded file) returns the attached AppClaims, or the empty claim set
when absent. -/
def appClaimsFromCtx (ctx : Ctx) : AppClaims :=
  match ctx.appClaims with
  | some c => c
  | none => emptyAppClaims

/-- hasRole (lines 132-139): plain linear scan equality check. -/
def hasRole (role : Role) : List Role → Bool
  | [] => false
  | r :: rest => if r = role then true else hasRole role rest

/-- RequiresRole (lines 118-130): reject 401 unless the required role is
in the context claims' role set; on success forward unchanged. -/
def requiresRole (role : Role) (ctx : Ctx) : HResult :=
  let claims := appClaimsFromCtx ctx
  if !hasRole role claims.roles then HResult.reject ⟨401, statusText 401⟩
  else HResult.forward ctx

/-! ## Shared helper lemmas -/

theorem extractToken_all_empty (fns : List (Request → String)) (r : Request)
    (h : ∀ fn ∈ fns, fn r = "") : extractToken fns r = "" := by
  induction fns with
  | nil => rfl
  | cons fn rest ih =>
    have hfn : fn r = "" := h fn (List.mem_cons_self fn rest)
    simp [extractToken, hfn]
    exact ih fun g hg => h g (List.mem_cons_of_mem fn hg)

theorem extractToken_head (fn : Request → String)
    (rest : List (Request → String)) (r : Request) (h : fn r ≠ "") :
    extractToken (fn :: rest) r = fn r := by
  simp [extractToken, h]

theorem hasRole_iff_mem (role : Role) (roles : List Role) :
    hasRole role roles = true ↔ role ∈ roles := by
  induction roles with
  | nil => simp [hasRole]
  | cons r rest ih =>
    simp only [hasRole]
    by_cases hr : r = role
    · simp [hr]
    · simp [hr, ih]
      exact fun h => (hr h.symm).elim

/-! ## Concrete values used by the witnesses -/

def hs256 : String := "HS256"

def rs256 : String := "RS256"

def noStr : String := ""

def qTok : String := "qtoken"

def bearerHdr : String := "Bearer headertoken"

def cTok : String := "cookietoken"

def wTokHS : Token := ⟨hs256, true, []⟩

def wDecodeOkHS : String → Token × Option VError := fun _ => (wTokHS, none)

def wJa : JwtAuth := ⟨hs256, wDecodeOkHS⟩

def wFnEmpty : Request → String := fun _ => noStr

def wReqEmpty : Request := ⟨noStr, noStr, noStr⟩

def wReqAll : Request := ⟨qTok, bearerHdr, cTok⟩

/-! ## Claims -/

/-- C2: when every configured extraction strategy yields the empty string,
and also when zero strategies are configured, verifyRequest returns no
token together with ErrNoTokenFound; the extraction loop itself reports
absence as the distinguished empty string (not an error value), converted
to the error only after the loop. -/
theorem c2_absent_credential (ja : JwtAuth) (fns : List (Request → String))
    (r : Request) (h : ∀ fn ∈ fns, fn r = "") :
    extractToken fns r = "" ∧
    ja.verifyRequest fns r = (none, some VError.errNoTokenFound) ∧
    ja.verifyRequest [] r = (none, some VError.errNoTokenFound) := by
  have he : extractToken fns r = "" := extractToken_all_empty fns r h
  refine ⟨he, ?_, rfl⟩
  simp [JwtAuth.verifyRequest, he]

theorem c2_absent_credential_witness :
    extractToken [wFnEmpty] wReqEmpty = "" ∧
    wJa.verifyRequest [wFnEmpty] wReqEmpty = (none, some VError.errNoTokenFound) ∧
    wJa.verifyRequest [] wReqEmpty = (none, some VError.errNoTokenFound) :=
  c2_absent_credential wJa [wFnEmpty] wReqEmpty
    (by intro fn hfn; rw [List.mem_singleton] at hfn; subst hfn; rfl)

/-- C3: Verify invokes the strategies in the fixed order query parameter,
Authorization Bearer header, cookie; extraction stops at the first
strategy returning a non-empty string, uses that credential, and ignores
the lower-priority channels (strategies after the first match are not
consulted: the result does not depend on them). -/
theorem c3_channel_priority (ja : JwtAuth) (r : Request) (ctx : Ctx) :
    ja.Verify r ctx =
      ja.verify [tokenFromQuery, tokenFromHeader, tokenFromCookie] r ctx ∧
    (tokenFromQuery r ≠ "" →
      extractToken [tokenFromQuery, tokenFromHeader, tokenFromCookie] r =
        tokenFromQuery r) ∧
    (tokenFromQuery r = "" → tokenFromHeader r ≠ "" →
      extractToken [tokenFromQuery, tokenFromHeader, tokenFromCookie] r =
        tokenFromHeader r) ∧
    (tokenFromQuery r = "" → tokenFromHeader r = "" →
      extractToken [tokenFromQuery, tokenFromHeader, tokenFromCookie] r =
        tokenFromCookie r) ∧
    (∀ fn : Request → String, ∀ rest : List (Request → String), fn r ≠ "" →
      extractToken (fn :: rest) r = fn r) := by
  refine ⟨rfl, ?_, ?_, ?_, ?_⟩
  · intro h
    exact extractToken_head _ _ _ h
  · intro h1 h2
    simp [extractToken, h1, h2]
  · intro h1 h2
    by_cases hc : tokenFromCookie r = ""
    · simp [extractToken, h1, h2, hc]
    · simp [extractToken, h1, h2, hc]
  · intro fn rest h
    exact extractToken_head fn rest r h

theorem c3_channel_priority_witness :
    tokenFromQuery wReqAll ≠ "" ∧
    extractToken [tokenFromQuery, tokenFromHeader, tokenFromCookie] wReqAll =
      tokenFromQuery wReqAll :=
  ⟨by decide, (c3_channel_priority wJa wReqAll ⟨none, none⟩).2.1 (by decide)⟩

/-- C5: the verify middleware never writes a rejection response: for every
request it attaches the outcome (token, error) of verifyRequest to the
request context and invokes the next handler exactly once with that
augmented context. -/
theorem c5_verify_always_forwards (ja : JwtAuth)
    (fns : List (Request → String)) (r : Request) (ctx : Ctx) :
    ja.verify fns r ctx =
      HResult.forward
        (newContext ctx (ja.verifyRequest fns r).1 (ja.verifyRequest fns r).2) :=
  rfl

def boomMsg : String := "bad signature"

def wFnQuery : Request → String := fun r => r.query

def wReqQ : Request := ⟨qTok, noStr, noStr⟩

def wDecodeExpired : String → Token × Option VError :=
  fun _ => (wTokHS, some (VError.validation validationErrorExpired))

def wJaExpired : JwtAuth := ⟨hs256, wDecodeExpired⟩

def wJaRS : JwtAuth := ⟨rs256, wDecodeOkHS⟩

def wDecodeOther : String → Token × Option VError :=
  fun _ => (wTokHS, some (VError.other boomMsg))

def wJaOther : JwtAuth := ⟨hs256, wDecodeOther⟩

/-- C1: when the located credential's decode fails, verifyRequest returns
the (possibly partially populated) token alongside the classified error,
and the classification checks, in priority order, the Expired bit
(ErrExpired), the IssuedAt bit (ErrIATInvalid), the NotValidYet bit
(ErrNBFInvalid), and passes any decode failure not matching these
time-based causes through unchanged. -/
theorem c1_decode_error_classification (ja : JwtAuth)
    (fns : List (Request → String)) (r : Request) (tok : Token) (e : VError)
    (hs : extractToken fns r ≠ "")
    (hd : ja.decode (extractToken fns r) = (tok, some e)) :
    ja.verifyRequest fns r = (some tok, some (classifyDecodeError e)) ∧
    ∀ errs, e = VError.validation errs →
      (0 < errs &&& validationErrorExpired →
        classifyDecodeError e = VError.errExpired) ∧
      (errs &&& validationErrorExpired = 0 →
        0 < errs &&& validationErrorIssuedAt →
        classifyDecodeError e = VError.errIATInvalid) ∧
      (errs &&& validationErrorExpired = 0 →
        errs &&& validationErrorIssuedAt = 0 →
        0 < errs &&& validationErrorNotValidYet →
        classifyDecodeError e = VError.errNBFInvalid) ∧
      (errs &&& validationErrorExpired = 0 →
        errs &&& validationErrorIssuedAt = 0 →
        errs &&& validationErrorNotValidYet = 0 →
        classifyDecodeError e = e) := by
  constructor
  · simp only [JwtAuth.verifyRequest]
    rw [if_neg hs, hd]
  · rintro errs rfl
    refine ⟨fun h1 => by simp [classifyDecodeError, h1],
            fun h1 h2 => by simp [classifyDecodeError, h1, h2],
            fun h1 h2 h3 => by simp [classifyDecodeError, h1, h2, h3],
            fun h1 h2 h3 => by simp [classifyDecodeError, h1, h2, h3]⟩

theorem c1_decode_error_classification_witness :
    wJaExpired.verifyRequest [wFnQuery] wReqQ =
      (some wTokHS,
        some (classifyDecodeError (VError.validation validationErrorExpired))) ∧
    classifyDecodeError (VError.validation validationErrorExpired) =
      VError.errExpired :=
  ⟨(c1_decode_error_classification wJaExpired [wFnQuery] wReqQ wTokHS
      (VError.validation validationErrorExpired) (by decide) rfl).1,
   ((c1_decode_error_classification wJaExpired [wFnQuery] wReqQ wTokHS
      (VError.validation validationErrorExpired) (by decide) rfl).2
        validationErrorExpired rfl).1 (by decide)⟩

/-- C4: when decode succeeds but the token's signing-method identifier
differs from the configured expected signing method, verifyRequest
returns (token, ErrAlgoInvalid); only when the methods are equal does it
return (token, no error). -/
theorem c4_algo_mismatch (ja : JwtAuth) (fns : List (Request → String))
    (r : Request) (tok : Token)
    (hs : extractToken fns r ≠ "")
    (hd : ja.decode (extractToken fns r) = (tok, none)) :
    (tok.method ≠ ja.signer →
      ja.verifyRequest fns r = (some tok, some VError.errAlgoInvalid)) ∧
    (tok.method = ja.signer →
      ja.verifyRequest fns r = (some tok, none)) := by
  constructor <;> intro hm <;>
    (simp only [JwtAuth.verifyRequest]; rw [if_neg hs, hd]; simp [hm])

theorem c4_algo_mismatch_witness :
    wTokHS.method ≠ wJaRS.signer ∧
    wJaRS.verifyRequest [wFnQuery] wReqQ =
      (some wTokHS, some VError.errAlgoInvalid) :=
  ⟨by decide,
   (c4_algo_mismatch wJaRS [wFnQuery] wReqQ wTokHS (by decide) rfl).1
     (by decide)⟩

/-- C9: the time-based classification applies only to decode errors of
the concrete type jwt.ValidationError: a decode error of any other type
is returned to the caller unchanged, alongside the token. -/
theorem c9_non_validation_passthrough (ja : JwtAuth)
    (fns : List (Request → String)) (r : Request) (tok : Token) (e : VError)
    (hs : extractToken fns r ≠ "")
    (hd : ja.decode (extractToken fns r) = (tok, some e))
    (hne : ∀ errs, e ≠ VError.validation errs) :
    classifyDecodeError e = e ∧
    ja.verifyRequest fns r = (some tok, some e) := by
  have hc : classifyDecodeError e = e := by
    cases e
    case validation errs => exact absurd rfl (hne errs)
    all_goals rfl
  refine ⟨hc, ?_⟩
  simp only [JwtAuth.verifyRequest]
  rw [if_neg hs, hd]
  simp [hc]

theorem c9_non_validation_passthrough_witness :
    wJaOther.verifyRequest [wFnQuery] wReqQ =
      (some wTokHS, some (VError.other boomMsg)) :=
  (c9_non_validation_passthrough wJaOther [wFnQuery] wReqQ wTokHS
    (VError.other boomMsg) (by decide) rfl
    (fun errs h => VError.noConfusion h)).2

/-- C10: whenever verifyRequest returns no error, the returned token is
exactly the decoder's output for the located credential, the decoder
reported no error, and the token's signing method equals the configured
signer; no nil-error outcome with a mismatched or absent method exists. -/
theorem c10_success_invariant (ja : JwtAuth) (fns : List (Request → String))
    (r : Request) (otok : Option Token)
    (h : ja.verifyRequest fns r = (otok, none)) :
    ∃ t : Token, otok = some t ∧
      extractToken fns r ≠ "" ∧
      ja.decode (extractToken fns r) = (t, none) ∧
      t.method = ja.signer := by
  by_cases hs : extractToken fns r = ""
  · rw [JwtAuth.verifyRequest] at h
    simp [hs] at h
  · simp only [JwtAuth.verifyRequest] at h
    rw [if_neg hs] at h
    cases hdec : ja.decode (extractToken fns r) with
    | mk tok err =>
      rw [hdec] at h
      cases err with
      | some e => simp at h
      | none =>
        by_cases hm : tok.method = ja.signer
        · simp [hm] at h
          exact ⟨tok, h.symm, hs, rfl, hm⟩
        · simp [hm] at h

theorem c10_success_invariant_witness :
    ∃ t : Token, (some wTokHS : Option Token) = some t ∧
      extractToken [wFnQuery] wReqQ ≠ "" ∧
      wJa.decode (extractToken [wFnQuery] wReqQ) = (t, none) ∧
      t.method = wJa.signer :=
  c10_success_invariant wJa [wFnQuery] wReqQ (some wTokHS) rfl

def parseNone : RawClaims → Option AppClaims := fun _ => none

def adminRole : Role := "admin"

def wClaims : AppClaims := { sub := "", roles := [adminRole] }

def wCtxClaims : Ctx := ⟨none, some wClaims⟩

theorem authenticate_reject_resp (parse : RawClaims → Option AppClaims)
    (ctx : Ctx) (resp : HttpResponse)
    (h : authenticate parse ctx = HResult.reject resp) :
    resp = ⟨401, statusText 401⟩ := by
  unfold authenticate at h
  repeat' split at h
  all_goals simp_all

theorem requiresRole_reject_resp (role : Role) (ctx : Ctx)
    (resp : HttpResponse)
    (h : requiresRole role ctx = HResult.reject resp) :
    resp = ⟨401, statusText 401⟩ := by
  simp only [requiresRole] at h
  split at h
  all_goals simp_all

/-- C6: Authenticate rejects with 401 and does not invoke the next
handler exactly when the context retrieval reports an error, or the token
is absent, or the token's validity flag is false, or parsing AppClaims
from the raw claim set fails; otherwise it attaches the parsed AppClaims
under the claims key and forwards. -/
theorem c6_authenticate_gate (parse : RawClaims → Option AppClaims)
    (ctx : Ctx) :
    ((tokenFromContext ctx).2.2 ≠ none ∨
     (tokenFromContext ctx).1 = none ∨
     (∃ t, (tokenFromContext ctx).1 = some t ∧ t.valid = false) ∨
     parse (tokenFromContext ctx).2.1 = none →
      authenticate parse ctx = HResult.reject ⟨401, statusText 401⟩) ∧
    (∀ t c, (tokenFromContext ctx).2.2 = none →
      (tokenFromContext ctx).1 = some t → t.valid = true →
      parse (tokenFromContext ctx).2.1 = some c →
      authenticate parse ctx =
        HResult.forward { ctx with appClaims := some c }) := by
  cases htfc : tokenFromContext ctx with
  | mk token rest =>
  cases rest with
  | mk claims err =>
  simp only [authenticate, htfc]
  constructor
  · intro hrej
    cases err with
    | some e => rfl
    | none =>
      cases token with
      | none => rfl
      | some t =>
        cases hv : t.valid with
        | false => simp [hv]
        | true =>
          have hp : parse claims = none := by
            rcases hrej with h | h | ⟨t2, ht2, hv2⟩ | h
            · exact absurd rfl h
            · exact Option.noConfusion h
            · simp_all
            · exact h
          simp [hv, hp]
  · intro t c herr htok hval hp
    subst herr
    subst htok
    simp [hval, hp]

theorem c6_authenticate_gate_witness :
    authenticate parseNone ⟨none, none⟩ =
      HResult.reject ⟨401, statusText 401⟩ :=
  (c6_authenticate_gate parseNone ⟨none, none⟩).1 (Or.inr (Or.inl rfl))

/-- C7: RequiresRole forwards the request unchanged exactly when the
required role is a member of the role set of the AppClaims retrieved from
the context, membership being the linear-scan hasRole; when AppClaims is
absent the role set is the empty set, so the request is rejected with
401. -/
theorem c7_requires_role (role : Role) (ctx : Ctx) :
    (hasRole role (appClaimsFromCtx ctx).roles = true ↔
      role ∈ (appClaimsFromCtx ctx).roles) ∧
    (role ∈ (appClaimsFromCtx ctx).roles →
      requiresRole role ctx = HResult.forward ctx) ∧
    (role ∉ (appClaimsFromCtx ctx).roles →
      requiresRole role ctx = HResult.reject ⟨401, statusText 401⟩) ∧
    (ctx.appClaims = none →
      (appClaimsFromCtx ctx).roles = [] ∧
      requiresRole role ctx = HResult.reject ⟨401, statusText 401⟩) := by
  have hm := hasRole_iff_mem role (appClaimsFromCtx ctx).roles
  refine ⟨hm, ?_, ?_, ?_⟩
  · intro h
    have ht : hasRole role (appClaimsFromCtx ctx).roles = true := hm.mpr h
    simp [requiresRole, ht]
  · intro h
    have hf : hasRole role (appClaimsFromCtx ctx).roles = false := by
      cases hb : hasRole role (appClaimsFromCtx ctx).roles
      · rfl
      · exact absurd (hm.mp hb) h
    simp [requiresRole, hf]
  · intro h
    have hroles : (appClaimsFromCtx ctx).roles = [] := by
      simp [appClaimsFromCtx, h, emptyAppClaims]
    refine ⟨hroles, ?_⟩
    simp [requiresRole, hroles, hasRole]

theorem c7_requires_role_witness :
    adminRole ∈ (appClaimsFromCtx wCtxClaims).roles ∧
    requiresRole adminRole wCtxClaims = HResult.forward wCtxClaims :=
  ⟨by decide, (c7_requires_role adminRole wCtxClaims).2.1 (by decide)⟩

/-- C8: any two rejected requests, whatever classified error caused each
rejection in Authenticate or RequiresRole, receive identical responses:
status 401 with the generic status-text body, revealing nothing about the
error kind. -/
theorem c8_uniform_rejection (p1 p2 : RawClaims → Option AppClaims)
    (ctx1 ctx2 ctx3 : Ctx) (role : Role) (r1 r2 r3 : HttpResponse)
    (h1 : authenticate p1 ctx1 = HResult.reject r1)
    (h2 : authenticate p2 ctx2 = HResult.reject r2)
    (h3 : requiresRole role ctx3 = HResult.reject r3) :
    r1 = r2 ∧ r2 = r3 ∧ r1.status = 401 ∧ r1.body = statusText 401 := by
  have e1 := authenticate_reject_resp p1 ctx1 r1 h1
  have e2 := authenticate_reject_resp p2 ctx2 r2 h2
  have e3 := requiresRole_reject_resp role ctx3 r3 h3
  subst e1
  subst e2
  subst e3
  exact ⟨rfl, rfl, rfl, rfl⟩

theorem c8_uniform_rejection_witness :
    (⟨401, statusText 401⟩ : HttpResponse) = ⟨401, statusText 401⟩ ∧
    (⟨401, statusText 401⟩ : HttpResponse) = ⟨401, statusText 401⟩ ∧
    (⟨401, statusText 401⟩ : HttpResponse).status = 401 ∧
    (⟨401, statusText 401⟩ : HttpResponse).body = statusText 401 :=
  c8_uniform_rejection parseNone parseNone ⟨none, none⟩ ⟨none, none⟩
    ⟨none, none⟩ adminRole ⟨401, statusText 401⟩ ⟨401, statusText 401⟩
    ⟨401, statusText 401⟩ rfl rfl rfl

end JwtMw
